import Mathlib

/-!
ClockCounter (LPC1768 TIMER2 pulse counter): register-level model

Shallow embedding of `lib_ClockCounter.cpp` / `lib_ClockCounter.h`.

* The memory-mapped registers touched by the driver (`LPC_SC->PCONP`,
  `LPC_SC->PCLKSEL1`, `LPC_PINCON->PINSEL0`, `LPC_TIM2->TCR`, `LPC_TIM2->CTCR`,
  `LPC_TIM2->CCR`, `LPC_TIM2->TC`) are fields of `Hw`; they are 32-bit, so every
  store is reduced modulo `2 ^ 32`.
* Every volatile access is appended to `Hw.trace`, so that "which registers
  are written, in which order" is a property of the model.
* `PinName` is the mbed enumeration; its enumerators `p30` and `p29` come from
  the mbed headers, not from this library, and are parameters of the model.
* The number of qualifying edges that reach the capture pin while `wait_us`
  blocks is an input of `getCount` (the signal is external to the program).
-/

set_option linter.dupNamespace false

namespace ClockCounter

/-! ## Data model -/

/-- Pin identifiers: the mbed `PinName` enumeration, by underlying integer value. -/
abbrev PinName := Int

/-- Edge selection, `enum edgeDetection { RISING = 1, FALLING = 2, BOTH = 3 }`. -/
inductive edgeDetection where
  | RISING
  | FALLING
  | BOTH
  deriving DecidableEq, Repr

/-- Integer value of an `edgeDetection` enumerator. -/
def edgeDetection.val : edgeDetection → Nat
  | .RISING => 1
  | .FALLING => 2
  | .BOTH => 3

/-- Names of the registers the driver accesses. -/
inductive Reg where
  | PCONP
  | PCLKSEL1
  | PINSEL0
  | TCR
  | CTCR
  | CCR
  | TC
  deriving DecidableEq, Repr

/-- One observable action of the program on its environment. -/
inductive Access where
  | read (r : Reg)
  | write (r : Reg) (v : Nat)
  | wait_us (period : Int)
  deriving DecidableEq, Repr

/-- Register file of the peripherals used by the driver, with the log of accesses. -/
structure Hw where
  PCONP : Nat
  PCLKSEL1 : Nat
  PINSEL0 : Nat
  TCR : Nat
  CTCR : Nat
  CCR : Nat
  TC : Nat
  trace : List Access
  deriving DecidableEq, Repr

/-- Value kept by a 32-bit register when `v` is stored into it. -/
def wrap32 (v : Nat) : Nat := v % 2 ^ 32

/-- Conversion of a `uint32_t` value to `int` (two's complement, 32 bits). -/
def toInt32 (v : Nat) : Int :=
  if wrap32 v < 2 ^ 31 then (wrap32 v : Int) else (wrap32 v : Int) - 2 ^ 32

/-! ## Register accesses -/

/-- Statement `LPC_SC->PCONP |= m;` (read, or, write back). -/
def Hw.orPCONP (s : Hw) (m : Nat) : Hw :=
  { s with
    PCONP := wrap32 (s.PCONP ||| m)
    trace := s.trace ++ [Access.read Reg.PCONP, Access.write Reg.PCONP (wrap32 (s.PCONP ||| m))] }

/-- Statement `LPC_SC->PCLKSEL1 |= m;` (read, or, write back). -/
def Hw.orPCLKSEL1 (s : Hw) (m : Nat) : Hw :=
  { s with
    PCLKSEL1 := wrap32 (s.PCLKSEL1 ||| m)
    trace := s.trace ++
      [Access.read Reg.PCLKSEL1, Access.write Reg.PCLKSEL1 (wrap32 (s.PCLKSEL1 ||| m))] }

/-- Statement `LPC_PINCON->PINSEL0 |= m;` (read, or, write back). -/
def Hw.orPINSEL0 (s : Hw) (m : Nat) : Hw :=
  { s with
    PINSEL0 := wrap32 (s.PINSEL0 ||| m)
    trace := s.trace ++
      [Access.read Reg.PINSEL0, Access.write Reg.PINSEL0 (wrap32 (s.PINSEL0 ||| m))] }

/-- Statement `LPC_TIM2->TCR = v;`.  Peripheral behaviour: bit 1 of TCR is the
counter reset, so a store with that bit set (the driver stores `0x2`) clears TC;
a store with the bit clear leaves TC as it is. -/
def Hw.writeTCR (s : Hw) (v : Nat) : Hw :=
  { s with
    TCR := wrap32 v
    TC := if (wrap32 v).testBit 1 then 0 else s.TC
    trace := s.trace ++ [Access.write Reg.TCR (wrap32 v)] }

/-- Statement `LPC_TIM2->CTCR = v;`. -/
def Hw.writeCTCR (s : Hw) (v : Nat) : Hw :=
  { s with CTCR := wrap32 v, trace := s.trace ++ [Access.write Reg.CTCR (wrap32 v)] }

/-- Statement `LPC_TIM2->CCR = v;`. -/
def Hw.writeCCR (s : Hw) (v : Nat) : Hw :=
  { s with CCR := wrap32 v, trace := s.trace ++ [Access.write Reg.CCR (wrap32 v)] }

/-- Expression `LPC_TIM2->TC`: the value read and the state after the read. -/
def Hw.readTC (s : Hw) : Nat × Hw :=
  (s.TC, { s with trace := s.trace ++ [Access.read Reg.TC] })

/-- Call `wait_us(period)` during which `edges` qualifying edges reach the
selected capture input.  Peripheral behaviour: while the reset bit (bit 1) of
TCR is set TC is held at 0; otherwise TC counts one per edge, modulo `2 ^ 32`,
while the enable bit (bit 0) is set (TCR = 1) and is frozen while it is clear
(TCR = 0). -/
def Hw.wait_us (s : Hw) (period : Int) (edges : Nat) : Hw :=
  { s with
    TC := if s.TCR.testBit 1 then 0
          else if s.TCR.testBit 0 then wrap32 (s.TC + edges)
          else s.TC
    trace := s.trace ++ [Access.wait_us period] }

/-! ## The driver -/

/-- Constructor `ClockCounter::ClockCounter(PinName PIN_CAP2, edgeDetection EDGE)`.
The `switch` has the two labels `p30`, `p29` and no `default`. -/
def ClockCounter (p30 p29 : PinName) (PIN_CAP2 : PinName) (EDGE : edgeDetection)
    (s : Hw) : Hw :=
  if PIN_CAP2 = p30 ∨ PIN_CAP2 = p29 then
    let s1 := s.orPCONP (0x1 <<< 22)
    let s2 := s1.orPCLKSEL1 (0x1 <<< 12)
    let s3 := s2.writeTCR 0x0
    let s4 := s3.orPINSEL0 (0x3 <<< (if PIN_CAP2 = p30 then 8 else 10))
    let s5 := s4.writeCTCR ((if PIN_CAP2 = p30 then 0 else 4) + EDGE.val)
    s5.writeCCR 0x0
  else
    s

/-- Default arguments of the constructor: `PIN_CAP2 = p30`, `EDGE = RISING`. -/
def ClockCounter_default (p30 p29 : PinName) (s : Hw) : Hw :=
  ClockCounter p30 p29 p30 edgeDetection.RISING s

/-- Method `int ClockCounter::getCount(int period)`; `edges` is the number of
qualifying edges arriving during the `wait_us` call.  Returns the `int` result
and the state left behind. -/
def getCount (period : Int) (edges : Nat) (s : Hw) : Int × Hw :=
  let s1 := s.writeTCR 0x2
  let s2 := s1.writeTCR 0x1
  let s3 := s2.wait_us period edges
  let s4 := s3.writeTCR 0x0
  let r := s4.readTC
  (toInt32 r.1, r.2)

/-- Constructor body run for p30, then for p29, then for p30 again (same edge). -/
def selectABA (p30 p29 : PinName) (EDGE : edgeDetection) (s : Hw) : Hw :=
  ClockCounter p30 p29 p30 EDGE (ClockCounter p30 p29 p29 EDGE (ClockCounter p30 p29 p30 EDGE s))

/-- Registers programmed by the constructor, as one tuple
(PCONP, PCLKSEL1, PINSEL0, TCR, CTCR, CCR). -/
def Hw.config (s : Hw) : Nat × Nat × Nat × Nat × Nat × Nat :=
  (s.PCONP, s.PCLKSEL1, s.PINSEL0, s.TCR, s.CTCR, s.CCR)

/-- Register names stored to by the accesses of a trace. -/
def writtenRegs : List Access → List Reg
  | [] => []
  | Access.write r _ :: t => r :: writtenRegs t
  | _ :: t => writtenRegs t

/-- State with every register 0 and an empty trace. -/
def Hw.zero : Hw :=
  { PCONP := 0, PCLKSEL1 := 0, PINSEL0 := 0, TCR := 0, CTCR := 0, CCR := 0, TC := 0, trace := [] }

/-- Value of `p30` (= `P0_4`) in the mbed LPC1768 pin map, used in examples. -/
def p30_lpc1768 : PinName := 0x2009C004

/-- Value of `p29` (= `P0_5`) in the mbed LPC1768 pin map, used in examples. -/
def p29_lpc1768 : PinName := 0x2009C005

/-! ## Auxiliary lemmas -/

theorem wrap32_lt (v : Nat) : wrap32 v < 2 ^ 32 :=
  Nat.mod_lt _ (by decide)

theorem wrap32_of_lt {v : Nat} (h : v < 2 ^ 32) : wrap32 v = v :=
  Nat.mod_eq_of_lt h

theorem testBit_wrap32 (v i : Nat) : (wrap32 v).testBit i = (decide (i < 32) && v.testBit i) := by
  unfold wrap32
  exact Nat.testBit_mod_two_pow v 32 i

theorem wrap32_or_wrap32 (a c : Nat) : wrap32 (wrap32 a ||| c) = wrap32 (a ||| c) := by
  apply Nat.eq_of_testBit_eq
  intro i
  simp only [testBit_wrap32, Nat.testBit_or]
  cases decide (i < 32) <;> simp

theorem wrap32_or_idem (a c : Nat) : wrap32 (wrap32 (a ||| c) ||| c) = wrap32 (a ||| c) := by
  rw [wrap32_or_wrap32, Nat.lor_assoc, Nat.or_self]

theorem testBit_768 (i : Nat) : Nat.testBit 768 i = (decide (8 = i) || decide (9 = i)) := by
  have e : (768 : Nat) = 2 ^ 8 ||| 2 ^ 9 := by decide
  rw [e, Nat.testBit_or, Nat.testBit_two_pow, Nat.testBit_two_pow]

theorem testBit_3072 (i : Nat) : Nat.testBit 3072 i = (decide (10 = i) || decide (11 = i)) := by
  have e : (3072 : Nat) = 2 ^ 10 ||| 2 ^ 11 := by decide
  rw [e, Nat.testBit_or, Nat.testBit_two_pow, Nat.testBit_two_pow]

theorem or_3072_eq_iff (a : Nat) :
    a ||| 3072 = a ↔ a.testBit 10 = true ∧ a.testBit 11 = true := by
  constructor
  · intro h
    have h10 := congrArg (fun v => Nat.testBit v 10) h
    have h11 := congrArg (fun v => Nat.testBit v 11) h
    simp only [Nat.testBit_or, testBit_3072] at h10 h11
    constructor
    · rw [← h10]; simp
    · rw [← h11]; simp
  · rintro ⟨h10, h11⟩
    apply Nat.eq_of_testBit_eq
    intro i
    rw [Nat.testBit_or, testBit_3072]
    by_cases e10 : 10 = i
    · subst e10; simp [h10]
    · by_cases e11 : 11 = i
      · subst e11; simp [h11]
      · simp [e10, e11]

theorem toInt32_wrap32 (v : Nat) : toInt32 (wrap32 v) = toInt32 v := by
  have e : wrap32 (wrap32 v) = wrap32 v := wrap32_of_lt (wrap32_lt v)
  unfold toInt32
  rw [e]

theorem toInt32_of_lt {v : Nat} (h : v < 2 ^ 31) : toInt32 v = (v : Int) := by
  have e : wrap32 v = v := wrap32_of_lt (lt_trans h (by decide))
  unfold toInt32
  rw [e, if_pos h]

/-- Result and final state of `getCount`, register by register. -/
theorem getCount_spec (period : Int) (edges : Nat) (s : Hw) :
    (getCount period edges s).1 = toInt32 edges ∧
    (getCount period edges s).2 =
      { s with
        TCR := 0
        TC := wrap32 edges
        trace := s.trace ++ [Access.write Reg.TCR 2, Access.write Reg.TCR 1,
          Access.wait_us period, Access.write Reg.TCR 0, Access.read Reg.TC] } := by
  have e2 : wrap32 2 = 2 := by decide
  have e1 : wrap32 1 = 1 := by decide
  have e0 : wrap32 0 = 0 := by decide
  have b21 : Nat.testBit 2 1 = true := by decide
  have b11 : Nat.testBit 1 1 = false := by decide
  have b10 : Nat.testBit 1 0 = true := by decide
  have b01 : Nat.testBit 0 1 = false := by decide
  constructor
  · simp [getCount, Hw.writeTCR, Hw.wait_us, Hw.readTC, e2, e1, e0, b21, b11, b10, b01,
      toInt32_wrap32]
  · simp [getCount, Hw.writeTCR, Hw.wait_us, Hw.readTC, e2, e1, e0, b21, b11, b10, b01]

/-- Registers after the constructor body has run (the pin is one of the two labels). -/
theorem ClockCounter_regs (p30 p29 PIN_CAP2 : PinName) (EDGE : edgeDetection) (s : Hw)
    (h : PIN_CAP2 = p30 ∨ PIN_CAP2 = p29) :
    (ClockCounter p30 p29 PIN_CAP2 EDGE s).PCONP = wrap32 (s.PCONP ||| 2 ^ 22) ∧
    (ClockCounter p30 p29 PIN_CAP2 EDGE s).PCLKSEL1 = wrap32 (s.PCLKSEL1 ||| 2 ^ 12) ∧
    (ClockCounter p30 p29 PIN_CAP2 EDGE s).PINSEL0 =
      wrap32 (s.PINSEL0 ||| (if PIN_CAP2 = p30 then 768 else 3072)) ∧
    (ClockCounter p30 p29 PIN_CAP2 EDGE s).TCR = 0 ∧
    (ClockCounter p30 p29 PIN_CAP2 EDGE s).CTCR = (if PIN_CAP2 = p30 then 0 else 4) + EDGE.val ∧
    (ClockCounter p30 p29 PIN_CAP2 EDGE s).CCR = 0 ∧
    (ClockCounter p30 p29 PIN_CAP2 EDGE s).TC = s.TC := by
  have hv : ((if PIN_CAP2 = p30 then 0 else 4) + EDGE.val) < 2 ^ 32 := by
    split <;> cases EDGE <;> decide
  unfold ClockCounter
  rw [if_pos h]
  refine ⟨?_, ?_, ?_, ?_, ?_, ?_, ?_⟩
  · simp [Hw.orPCONP, Hw.orPCLKSEL1, Hw.orPINSEL0, Hw.writeTCR, Hw.writeCTCR, Hw.writeCCR]
  · simp [Hw.orPCONP, Hw.orPCLKSEL1, Hw.orPINSEL0, Hw.writeTCR, Hw.writeCTCR, Hw.writeCCR]
  · by_cases hp : PIN_CAP2 = p30 <;>
      simp [hp, Hw.orPCONP, Hw.orPCLKSEL1, Hw.orPINSEL0, Hw.writeTCR, Hw.writeCTCR, Hw.writeCCR]
  · simp [Hw.orPCONP, Hw.orPCLKSEL1, Hw.orPINSEL0, Hw.writeTCR, Hw.writeCTCR, Hw.writeCCR,
      wrap32]
  · simp only [Hw.orPCONP, Hw.orPCLKSEL1, Hw.orPINSEL0, Hw.writeTCR, Hw.writeCTCR, Hw.writeCCR]
    exact wrap32_of_lt hv
  · simp [Hw.orPCONP, Hw.orPCLKSEL1, Hw.orPINSEL0, Hw.writeTCR, Hw.writeCTCR, Hw.writeCCR,
      wrap32]
  · simp [Hw.orPCONP, Hw.orPCLKSEL1, Hw.orPINSEL0, Hw.writeTCR, Hw.writeCTCR, Hw.writeCCR,
      wrap32]

/-! ## Constructor: postconditions -/

/-- C1: for every initial state, every supported pin (p30 or p29) and every edge
mode, after the constructor TCR = 0, CCR = 0 and bit 22 of PCONP is 1; the timer
is not counting: edges arriving during a later wait leave TC as it was. -/
theorem C1_constructor_disabled_and_powered (p30 p29 PIN_CAP2 : PinName)
    (EDGE : edgeDetection) (s : Hw) (h : PIN_CAP2 = p30 ∨ PIN_CAP2 = p29) :
    (ClockCounter p30 p29 PIN_CAP2 EDGE s).TCR = 0 ∧
    (ClockCounter p30 p29 PIN_CAP2 EDGE s).CCR = 0 ∧
    (ClockCounter p30 p29 PIN_CAP2 EDGE s).PCONP.testBit 22 = true ∧
    (∀ (period : Int) (edges : Nat),
      ((ClockCounter p30 p29 PIN_CAP2 EDGE s).wait_us period edges).TC = s.TC) := by
  obtain ⟨hP, -, -, hT, -, hC, hTC⟩ := ClockCounter_regs p30 p29 PIN_CAP2 EDGE s h
  refine ⟨hT, hC, ?_, ?_⟩
  · rw [hP, testBit_wrap32, Nat.testBit_or, Nat.testBit_two_pow_self]
    simp
  · intro period edges
    simp [Hw.wait_us, hT, hTC]

/-- C1 instance: p30 on the LPC1768 pin map, RISING, from the all-zero state. -/
theorem C1_constructor_disabled_and_powered_witness :
    (p30_lpc1768 = p30_lpc1768 ∨ p30_lpc1768 = p29_lpc1768) ∧
    (ClockCounter p30_lpc1768 p29_lpc1768 p30_lpc1768 edgeDetection.RISING Hw.zero).TCR = 0 ∧
    (ClockCounter p30_lpc1768 p29_lpc1768 p30_lpc1768 edgeDetection.RISING Hw.zero).CCR = 0 ∧
    (ClockCounter p30_lpc1768 p29_lpc1768 p30_lpc1768 edgeDetection.RISING
      Hw.zero).PCONP.testBit 22 = true :=
  ⟨Or.inl rfl,
    (C1_constructor_disabled_and_powered p30_lpc1768 p29_lpc1768 p30_lpc1768
      edgeDetection.RISING Hw.zero (Or.inl rfl)).1,
    (C1_constructor_disabled_and_powered p30_lpc1768 p29_lpc1768 p30_lpc1768
      edgeDetection.RISING Hw.zero (Or.inl rfl)).2.1,
    (C1_constructor_disabled_and_powered p30_lpc1768 p29_lpc1768 p30_lpc1768
      edgeDetection.RISING Hw.zero (Or.inl rfl)).2.2.1⟩

/-- C2: with p30 and p29 distinct pins, after the constructor CTCR is
(0 for p30, 4 for p29) + (RISING = 1, FALLING = 2, BOTH = 3); its low two bits
are the edge value, bits 3..2 are 00 for p30 and 01 for p29, all higher bits are
0, the six (pin, edge) combinations give pairwise distinct CTCR values, and the
default construction (p30, RISING) gives CTCR = 1. -/
theorem C2_ctcr_encoding (p30 p29 : PinName) (hne : p30 ≠ p29) :
    (edgeDetection.RISING.val = 1 ∧ edgeDetection.FALLING.val = 2 ∧
      edgeDetection.BOTH.val = 3) ∧
    (∀ (EDGE : edgeDetection) (s : Hw),
      (ClockCounter p30 p29 p30 EDGE s).CTCR = 0 + EDGE.val ∧
      (ClockCounter p30 p29 p30 EDGE s).CTCR % 4 = EDGE.val ∧
      (ClockCounter p30 p29 p30 EDGE s).CTCR / 4 % 4 = 0 ∧
      (ClockCounter p30 p29 p30 EDGE s).CTCR / 16 = 0) ∧
    (∀ (EDGE : edgeDetection) (s : Hw),
      (ClockCounter p30 p29 p29 EDGE s).CTCR = 4 + EDGE.val ∧
      (ClockCounter p30 p29 p29 EDGE s).CTCR % 4 = EDGE.val ∧
      (ClockCounter p30 p29 p29 EDGE s).CTCR / 4 % 4 = 1 ∧
      (ClockCounter p30 p29 p29 EDGE s).CTCR / 16 = 0) ∧
    (∀ (PIN1 PIN2 : PinName) (EDGE1 EDGE2 : edgeDetection) (s1 s2 : Hw),
      (PIN1 = p30 ∨ PIN1 = p29) → (PIN2 = p30 ∨ PIN2 = p29) →
      (ClockCounter p30 p29 PIN1 EDGE1 s1).CTCR = (ClockCounter p30 p29 PIN2 EDGE2 s2).CTCR →
      PIN1 = PIN2 ∧ EDGE1 = EDGE2) ∧
    (∀ s : Hw, (ClockCounter_default p30 p29 s).CTCR = 1) := by
  have h29 : ¬ (p29 = p30) := fun h => hne h.symm
  have hA : ∀ (EDGE : edgeDetection) (s : Hw),
      (ClockCounter p30 p29 p30 EDGE s).CTCR = 0 + EDGE.val := by
    intro EDGE s
    have h := (ClockCounter_regs p30 p29 p30 EDGE s (Or.inl rfl)).2.2.2.2.1
    rw [h, if_pos rfl]
  have hB : ∀ (EDGE : edgeDetection) (s : Hw),
      (ClockCounter p30 p29 p29 EDGE s).CTCR = 4 + EDGE.val := by
    intro EDGE s
    have h := (ClockCounter_regs p30 p29 p29 EDGE s (Or.inr rfl)).2.2.2.2.1
    rw [h, if_neg h29]
  refine ⟨⟨rfl, rfl, rfl⟩, ?_, ?_, ?_, ?_⟩
  · intro EDGE s
    rw [hA]
    cases EDGE <;> decide
  · intro EDGE s
    rw [hB]
    cases EDGE <;> decide
  · intro PIN1 PIN2 EDGE1 EDGE2 s1 s2 h1 h2 hc
    rcases h1 with rfl | rfl <;> rcases h2 with rfl | rfl
    · rw [hA, hA] at hc
      exact ⟨rfl, by cases EDGE1 <;> cases EDGE2 <;> simp_all [edgeDetection.val]⟩
    · rw [hA, hB] at hc
      exact absurd hc (by cases EDGE1 <;> cases EDGE2 <;> decide)
    · rw [hB, hA] at hc
      exact absurd hc (by cases EDGE1 <;> cases EDGE2 <;> decide)
    · rw [hB, hB] at hc
      exact ⟨rfl, by cases EDGE1 <;> cases EDGE2 <;> simp_all [edgeDetection.val]⟩
  · intro s
    unfold ClockCounter_default
    rw [hA]
    rfl

/-- C2 instance: on the LPC1768 pin map, p29 with BOTH programs CTCR = 7. -/
theorem C2_ctcr_encoding_witness :
    p30_lpc1768 ≠ p29_lpc1768 ∧
    (ClockCounter p30_lpc1768 p29_lpc1768 p29_lpc1768 edgeDetection.BOTH Hw.zero).CTCR = 7 :=
  ⟨by decide,
    ((C2_ctcr_encoding p30_lpc1768 p29_lpc1768 (by decide)).2.2.1
      edgeDetection.BOTH Hw.zero).1⟩

/-- C3: for a pin that is neither p30 nor p29 the constructor returns the
hardware state it was given: every register (PCONP, PCLKSEL1, PINSEL0, TCR,
CTCR, CCR, TC) is as before and no register access is made; the constructor
has no error result. -/
theorem C3_unsupported_pin_noop (p30 p29 PIN_CAP2 : PinName) (EDGE : edgeDetection)
    (s : Hw) (h30 : PIN_CAP2 ≠ p30) (h29 : PIN_CAP2 ≠ p29) :
    ClockCounter p30 p29 PIN_CAP2 EDGE s = s := by
  unfold ClockCounter
  rw [if_neg]
  rintro (h | h)
  · exact h30 h
  · exact h29 h

/-- C3 instance: pin value 0 on the LPC1768 pin map, FALLING, from a state with
registers already programmed. -/
theorem C3_unsupported_pin_noop_witness :
    (0 : PinName) ≠ p30_lpc1768 ∧ (0 : PinName) ≠ p29_lpc1768 ∧
    ClockCounter p30_lpc1768 p29_lpc1768 0 edgeDetection.FALLING
      { Hw.zero with PINSEL0 := 5, TC := 9 } = { Hw.zero with PINSEL0 := 5, TC := 9 } :=
  ⟨by decide, by decide,
    C3_unsupported_pin_noop p30_lpc1768 p29_lpc1768 0 edgeDetection.FALLING
      { Hw.zero with PINSEL0 := 5, TC := 9 } (by decide) (by decide)⟩

/-- C6: running the constructor body twice with the same pin and edge leaves
PCONP, PCLKSEL1, PINSEL0, TCR, CTCR and CCR as running it once does, for every
initial state, every pin value and every edge mode. -/
theorem C6_configuration_idempotent (p30 p29 PIN_CAP2 : PinName) (EDGE : edgeDetection)
    (s : Hw) :
    (ClockCounter p30 p29 PIN_CAP2 EDGE (ClockCounter p30 p29 PIN_CAP2 EDGE s)).config =
      (ClockCounter p30 p29 PIN_CAP2 EDGE s).config := by
  by_cases h : PIN_CAP2 = p30 ∨ PIN_CAP2 = p29
  · obtain ⟨a1, a2, a3, a4, a5, a6, -⟩ := ClockCounter_regs p30 p29 PIN_CAP2 EDGE s h
    obtain ⟨b1, b2, b3, b4, b5, b6, -⟩ :=
      ClockCounter_regs p30 p29 PIN_CAP2 EDGE (ClockCounter p30 p29 PIN_CAP2 EDGE s) h
    unfold Hw.config
    rw [b1, b2, b3, b4, b5, b6, a1, a2, a3, a4, a5, a6, wrap32_or_idem, wrap32_or_idem,
      wrap32_or_idem]
  · have e : ∀ t : Hw, ClockCounter p30 p29 PIN_CAP2 EDGE t = t := by
      intro t
      unfold ClockCounter
      rw [if_neg h]
    rw [e, e]

/-- C7: with p30 and p29 distinct pins, after the constructor with p30 bits 9
and 8 of PINSEL0 are 1 and every other bit of the 32-bit register is as before;
after the constructor with p29 bits 11 and 10 are 1 and every other bit is as
before. -/
theorem C7_pinsel0_field (p30 p29 : PinName) (hne : p30 ≠ p29) (EDGE : edgeDetection)
    (s : Hw) :
    ((ClockCounter p30 p29 p30 EDGE s).PINSEL0.testBit 9 = true ∧
      (ClockCounter p30 p29 p30 EDGE s).PINSEL0.testBit 8 = true ∧
      ∀ i : Nat, i < 32 → i ≠ 8 → i ≠ 9 →
        (ClockCounter p30 p29 p30 EDGE s).PINSEL0.testBit i = s.PINSEL0.testBit i) ∧
    ((ClockCounter p30 p29 p29 EDGE s).PINSEL0.testBit 11 = true ∧
      (ClockCounter p30 p29 p29 EDGE s).PINSEL0.testBit 10 = true ∧
      ∀ i : Nat, i < 32 → i ≠ 10 → i ≠ 11 →
        (ClockCounter p30 p29 p29 EDGE s).PINSEL0.testBit i = s.PINSEL0.testBit i) := by
  have h29 : ¬ (p29 = p30) := fun h => hne h.symm
  have hA := (ClockCounter_regs p30 p29 p30 EDGE s (Or.inl rfl)).2.2.1
  have hB := (ClockCounter_regs p30 p29 p29 EDGE s (Or.inr rfl)).2.2.1
  rw [if_pos rfl] at hA
  rw [if_neg h29] at hB
  rw [hA, hB]
  simp only [testBit_wrap32, Nat.testBit_or, testBit_768, testBit_3072]
  refine ⟨⟨by simp, by simp, ?_⟩, ⟨by simp, by simp, ?_⟩⟩
  · intro i hi h8 h9
    simp [hi, h8.symm, h9.symm]
  · intro i hi h10 h11
    simp [hi, h10.symm, h11.symm]

/-- C7 instance: LPC1768 pin map, p30, bit 0 of PINSEL0 = 5 is kept. -/
theorem C7_pinsel0_field_witness :
    p30_lpc1768 ≠ p29_lpc1768 ∧ 0 < 32 ∧ 0 ≠ 8 ∧ 0 ≠ 9 ∧
    (ClockCounter p30_lpc1768 p29_lpc1768 p30_lpc1768 edgeDetection.RISING
      { Hw.zero with PINSEL0 := 5 }).PINSEL0.testBit 0 = Nat.testBit 5 0 :=
  ⟨by decide, by decide, by decide, by decide,
    (C7_pinsel0_field p30_lpc1768 p29_lpc1768 (by decide) edgeDetection.RISING
      { Hw.zero with PINSEL0 := 5 }).1.2.2 0 (by decide) (by decide) (by decide)⟩

/-! ## Constructor: reconfiguration -/

/-- C5 fails as stated: from the all-zero state (LPC1768 pin map, RISING),
p30 then p29 then p30 leaves PINSEL0 = 0xF00 while p30 alone leaves 0x300, so the
programmed registers differ. -/
theorem C5_roundtrip_counterexample :
    (selectABA p30_lpc1768 p29_lpc1768 edgeDetection.RISING Hw.zero).PINSEL0 = 0xF00 ∧
    (ClockCounter p30_lpc1768 p29_lpc1768 p30_lpc1768 edgeDetection.RISING
      Hw.zero).PINSEL0 = 0x300 ∧
    (selectABA p30_lpc1768 p29_lpc1768 edgeDetection.RISING Hw.zero).config ≠
      (ClockCounter p30_lpc1768 p29_lpc1768 p30_lpc1768 edgeDetection.RISING Hw.zero).config := by
  decide

/-- C5 (amended): with p30 and p29 distinct pins, running the constructor body
for p30, then p29, then p30 leaves PCONP, PCLKSEL1, TCR, CTCR and CCR equal to
what one run for p30 leaves, and leaves PINSEL0 equal to that of one run for p30
with bits 11..10 (the p29 field) additionally set; the six registers are all
restored exactly when bits 11 and 10 of the initial PINSEL0 were already 1. -/
theorem C5_roundtrip_amended (p30 p29 : PinName) (hne : p30 ≠ p29) (EDGE : edgeDetection)
    (s : Hw) :
    (selectABA p30 p29 EDGE s).PCONP = (ClockCounter p30 p29 p30 EDGE s).PCONP ∧
    (selectABA p30 p29 EDGE s).PCLKSEL1 = (ClockCounter p30 p29 p30 EDGE s).PCLKSEL1 ∧
    (selectABA p30 p29 EDGE s).TCR = (ClockCounter p30 p29 p30 EDGE s).TCR ∧
    (selectABA p30 p29 EDGE s).CTCR = (ClockCounter p30 p29 p30 EDGE s).CTCR ∧
    (selectABA p30 p29 EDGE s).CCR = (ClockCounter p30 p29 p30 EDGE s).CCR ∧
    (selectABA p30 p29 EDGE s).PINSEL0 = (ClockCounter p30 p29 p30 EDGE s).PINSEL0 ||| 0xC00 ∧
    ((selectABA p30 p29 EDGE s).config = (ClockCounter p30 p29 p30 EDGE s).config ↔
      s.PINSEL0.testBit 10 = true ∧ s.PINSEL0.testBit 11 = true) := by
  have h29 : ¬ (p29 = p30) := fun h => hne h.symm
  obtain ⟨a1, a2, a3, a4, a5, a6, -⟩ := ClockCounter_regs p30 p29 p30 EDGE s (Or.inl rfl)
  obtain ⟨b1, b2, b3, -, -, -, -⟩ :=
    ClockCounter_regs p30 p29 p29 EDGE (ClockCounter p30 p29 p30 EDGE s) (Or.inr rfl)
  obtain ⟨c1, c2, c3, c4, c5, c6, -⟩ :=
    ClockCounter_regs p30 p29 p30 EDGE
      (ClockCounter p30 p29 p29 EDGE (ClockCounter p30 p29 p30 EDGE s)) (Or.inl rfl)
  rw [if_pos rfl] at a3 c3
  rw [if_neg h29] at b3
  have e1 : (selectABA p30 p29 EDGE s).PCONP = (ClockCounter p30 p29 p30 EDGE s).PCONP := by
    unfold selectABA
    rw [c1, b1, a1, wrap32_or_idem, wrap32_or_idem]
  have e2 : (selectABA p30 p29 EDGE s).PCLKSEL1 = (ClockCounter p30 p29 p30 EDGE s).PCLKSEL1 := by
    unfold selectABA
    rw [c2, b2, a2, wrap32_or_idem, wrap32_or_idem]
  have e3 : (selectABA p30 p29 EDGE s).TCR = (ClockCounter p30 p29 p30 EDGE s).TCR := by
    unfold selectABA
    rw [c4, a4]
  have e4 : (selectABA p30 p29 EDGE s).CTCR = (ClockCounter p30 p29 p30 EDGE s).CTCR := by
    unfold selectABA
    rw [c5, a5]
  have e5 : (selectABA p30 p29 EDGE s).CCR = (ClockCounter p30 p29 p30 EDGE s).CCR := by
    unfold selectABA
    rw [c6, a6]
  have e6 : (selectABA p30 p29 EDGE s).PINSEL0 =
      (ClockCounter p30 p29 p30 EDGE s).PINSEL0 ||| 0xC00 := by
    unfold selectABA
    rw [c3, b3, a3]
    apply Nat.eq_of_testBit_eq
    intro i
    simp only [testBit_wrap32, Nat.testBit_or, testBit_768, testBit_3072]
    by_cases hi : i < 32
    · simp only [hi, decide_True, Bool.true_and]
      cases s.PINSEL0.testBit i <;> cases decide (8 = i) <;> cases decide (9 = i) <;>
        cases decide (10 = i) <;> cases decide (11 = i) <;> rfl
    · have n10 : ¬ (10 = i) := by omega
      have n11 : ¬ (11 = i) := by omega
      simp [hi, n10, n11]
  refine ⟨e1, e2, e3, e4, e5, e6, ?_⟩
  have key : (selectABA p30 p29 EDGE s).PINSEL0 = (ClockCounter p30 p29 p30 EDGE s).PINSEL0 ↔
      s.PINSEL0.testBit 10 = true ∧ s.PINSEL0.testBit 11 = true := by
    rw [e6, or_3072_eq_iff, a3]
    simp [testBit_wrap32, testBit_768]
  unfold Hw.config
  rw [e1, e2, e3, e4, e5]
  constructor
  · intro h
    exact key.mp (congrArg (fun t => t.2.2.1) h)
  · intro h
    rw [key.mpr h]

/-- C5 (amended) instance: LPC1768 pin map, FALLING, from the all-zero state. -/
theorem C5_roundtrip_amended_witness :
    p30_lpc1768 ≠ p29_lpc1768 ∧
    (selectABA p30_lpc1768 p29_lpc1768 edgeDetection.FALLING Hw.zero).CTCR =
      (ClockCounter p30_lpc1768 p29_lpc1768 p30_lpc1768 edgeDetection.FALLING Hw.zero).CTCR ∧
    (selectABA p30_lpc1768 p29_lpc1768 edgeDetection.FALLING Hw.zero).PINSEL0 =
      (ClockCounter p30_lpc1768 p29_lpc1768 p30_lpc1768 edgeDetection.FALLING
        Hw.zero).PINSEL0 ||| 0xC00 :=
  ⟨by decide,
    (C5_roundtrip_amended p30_lpc1768 p29_lpc1768 (by decide) edgeDetection.FALLING
      Hw.zero).2.2.2.1,
    (C5_roundtrip_amended p30_lpc1768 p29_lpc1768 (by decide) edgeDetection.FALLING
      Hw.zero).2.2.2.2.2.1⟩

/-- C8 at a failing input: with PCLKSEL1 = 0x2000 before the call (bits 13..12
= 10), the constructor (LPC1768 pin map, p30, RISING) leaves PCLKSEL1 = 0x3000,
i.e. bits 13..12 = 11, not 01. -/
theorem C8_pclksel1_bit13_survives :
    (ClockCounter p30_lpc1768 p29_lpc1768 p30_lpc1768 edgeDetection.RISING
      { Hw.zero with PCLKSEL1 := 0x2000 }).PCLKSEL1 = 0x3000 ∧
    (ClockCounter p30_lpc1768 p29_lpc1768 p30_lpc1768 edgeDetection.RISING
      { Hw.zero with PCLKSEL1 := 0x2000 }).PCLKSEL1 / 2 ^ 12 % 4 = 3 := by
  decide

/-! ## getCount -/

/-- C4 fails as stated: with 2 ^ 31 qualifying edges during a wait of
2147483647 microseconds, getCount returns -2147483648, not the edge count. -/
theorem C4_getCount_counterexample :
    (getCount 2147483647 (2 ^ 31) Hw.zero).1 = -2147483648 ∧
    (getCount 2147483647 (2 ^ 31) Hw.zero).1 ≠ ((2 ^ 31 : Nat) : Int) := by
  decide

/-- C4 (amended): for every period, every number of edges arriving during the
wait and every initial state (in particular every initial TC), getCount performs
exactly write TCR=2, write TCR=1, wait_us(period), write TCR=0, read TC; it
returns the edge count reduced modulo 2 ^ 32 and read as a signed 32-bit int,
which is the edge count itself whenever fewer than 2 ^ 31 edges arrived; and the
result is the same from any other initial state. -/
theorem C4_getCount_amended (period : Int) (edges : Nat) (s : Hw) :
    (getCount period edges s).2.trace =
      s.trace ++ [Access.write Reg.TCR 2, Access.write Reg.TCR 1, Access.wait_us period,
        Access.write Reg.TCR 0, Access.read Reg.TC] ∧
    (getCount period edges s).1 = toInt32 edges ∧
    (edges < 2 ^ 31 → (getCount period edges s).1 = (edges : Int)) ∧
    (∀ s2 : Hw, (getCount period edges s2).1 = (getCount period edges s).1) := by
  obtain ⟨h1, h2⟩ := getCount_spec period edges s
  refine ⟨by rw [h2], h1, ?_, ?_⟩
  · intro h
    rw [h1, toInt32_of_lt h]
  · intro s2
    rw [h1, (getCount_spec period edges s2).1]

/-- C4 (amended) instance: 1000 edges in one second, TC = 77 left by an earlier
measurement. -/
theorem C4_getCount_amended_witness :
    1000 < 2 ^ 31 ∧ (getCount 1000000 1000 { Hw.zero with TC := 77 }).1 = 1000 :=
  ⟨by decide,
    (C4_getCount_amended 1000000 1000 { Hw.zero with TC := 77 }).2.2.1 (by decide)⟩

/-- C9: for every period, every number of edges and every initial state, after
getCount TCR = 0, the registers CTCR, CCR, PINSEL0, PCONP and PCLKSEL1 hold the
values they held before, and the stores made by the call are three stores to
TCR and nothing else. -/
theorem C9_getCount_frame (period : Int) (edges : Nat) (s : Hw) :
    (getCount period edges s).2.TCR = 0 ∧
    (getCount period edges s).2.CTCR = s.CTCR ∧
    (getCount period edges s).2.CCR = s.CCR ∧
    (getCount period edges s).2.PINSEL0 = s.PINSEL0 ∧
    (getCount period edges s).2.PCONP = s.PCONP ∧
    (getCount period edges s).2.PCLKSEL1 = s.PCLKSEL1 ∧
    writtenRegs ((getCount period edges s).2.trace.drop s.trace.length) =
      [Reg.TCR, Reg.TCR, Reg.TCR] := by
  rw [(getCount_spec period edges s).2]
  refine ⟨rfl, rfl, rfl, rfl, rfl, rfl, ?_⟩
  simp [writtenRegs]

/-- C10: getCount returns the 32-bit counter TC converted to a signed 32-bit
int.  TC at the read is the edge count modulo 2 ^ 32; when it is below 2 ^ 31
the result equals TC and is non-negative; when it is 2 ^ 31 or more the result
is TC - 2 ^ 32 and is negative; the result equals the edge count exactly when
fewer than 2 ^ 31 edges were counted. -/
theorem C10_getCount_signed_result (period : Int) (edges : Nat) (s : Hw) :
    (getCount period edges s).2.TC = edges % 2 ^ 32 ∧
    ((getCount period edges s).2.TC < 2 ^ 31 →
      (getCount period edges s).1 = ((getCount period edges s).2.TC : Int) ∧
      0 ≤ (getCount period edges s).1) ∧
    (2 ^ 31 ≤ (getCount period edges s).2.TC →
      (getCount period edges s).1 = ((getCount period edges s).2.TC : Int) - 2 ^ 32 ∧
      (getCount period edges s).1 < 0) ∧
    ((getCount period edges s).1 = (edges : Int) ↔ edges < 2 ^ 31) := by
  obtain ⟨h1, h2⟩ := getCount_spec period edges s
  have hlt : wrap32 edges < 2 ^ 32 := wrap32_lt edges
  have hle : wrap32 edges ≤ edges := Nat.mod_le _ _
  rw [h1, h2]
  show wrap32 edges = edges % 2 ^ 32 ∧
    (wrap32 edges < 2 ^ 31 → toInt32 edges = (wrap32 edges : Int) ∧ 0 ≤ toInt32 edges) ∧
    (2 ^ 31 ≤ wrap32 edges →
      toInt32 edges = (wrap32 edges : Int) - 2 ^ 32 ∧ toInt32 edges < 0) ∧
    (toInt32 edges = (edges : Int) ↔ edges < 2 ^ 31)
  refine ⟨rfl, ?_, ?_, ?_⟩
  · intro h
    unfold toInt32
    rw [if_pos h]
    exact ⟨rfl, Int.ofNat_nonneg _⟩
  · intro h
    unfold toInt32
    rw [if_neg (Nat.not_lt.mpr h)]
    refine ⟨rfl, ?_⟩
    omega
  · constructor
    · intro h
      by_contra hge
      unfold toInt32 at h
      split at h <;> omega
    · intro h
      exact toInt32_of_lt h

/-- C10 instances: 42 edges give TC = 42 and the result 42; 2 ^ 31 + 5 edges
give TC = 2147483653 and the result 2147483653 - 2 ^ 32 = -2147483643. -/
theorem C10_getCount_signed_result_witness :
    ((getCount 1000000 42 Hw.zero).2.TC < 2 ^ 31 ∧
      (getCount 1000000 42 Hw.zero).1 = 42) ∧
    (2 ^ 31 ≤ (getCount 2147483647 (2 ^ 31 + 5) Hw.zero).2.TC ∧
      (getCount 2147483647 (2 ^ 31 + 5) Hw.zero).1 = -2147483643) :=
  ⟨⟨by decide, ((C10_getCount_signed_result 1000000 42 Hw.zero).2.1 (by decide)).1⟩,
    ⟨by decide,
      ((C10_getCount_signed_result 2147483647 (2 ^ 31 + 5) Hw.zero).2.2.1 (by decide)).1⟩⟩

end ClockCounter

